import Mathlib

/-!
A verification development for the trafaret data-validation library
(src/trafaret/__init__.py).  The JSON-like values handled by the library are
embedded as the inductive type `Value`, validation errors (`DataError`) as the
inductive type `DataError`, and the combinators that the claims exercise
(`Or`, `List`, `Dict` with `Key` descriptors, `Mapping`, `Forward`, and the
converter pipeline of `Trafaret.check`) as an inductive schema type `Trafaret`
with an executable checker `check`.

Conventions used throughout:
* A Python function that returns normally is modelled as `Res.ok`;
  `raise DataError(...)` is `Res.err`; any exception that is not a `DataError`
  (RuntimeError, AttributeError, ...) is `Res.fatal` -- the combinators catch
  only `DataError` (`except DataError`), so `Res.fatal` propagates through
  every loop, exactly as an uncaught exception would.
* Python dicts are association lists in insertion order; `d[k] = v` is `dSet`
  (update in place if the key exists, append otherwise), mirroring dict
  assignment semantics.
* Leaf validators are out of scope for the library spec; the two leaves the
  claims use are modelled on the domain the claims exercise: `Trafaret.int`
  models `Int()` with no range options configured, and `Trafaret.string`
  models `String()` with no regex and no length options.
-/

/-- JSON-like runtime values: the data a trafaret validates.
`dict` keeps entries in insertion order, like a Python dict. -/
inductive Value where
  | null : Value
  | bool (b : Bool) : Value
  | int (n : Int) : Value
  | str (s : String) : Value
  | list (items : List Value) : Value
  | dict (entries : List (Value × Value)) : Value
deriving Repr

/-- The recursive error model of `DataError`: `self.error` is either a plain
message string or a mapping from location (field name, index, or original
input key) to a nested `DataError`. -/
inductive DataError where
  | msg (s : String) : DataError
  | children (entries : List (Value × DataError)) : DataError
deriving Repr

/-- Outcome of running `check(value)` on some node:
`ok` = normal return, `err` = a raised `DataError`,
`fatal` = a raised non-`DataError` exception (never caught by combinators). -/
inductive Res where
  | ok (v : Value) : Res
  | err (e : DataError) : Res
  | fatal (s : String) : Res
deriving Repr

def Res.isFatal : Res → Bool
  | .fatal _ => true
  | _ => false

def Res.okVal : Res → Option Value
  | .ok v => some v
  | _ => none

def Res.errVal : Res → Option DataError
  | .err e => some e
  | _ => none

/-- Structural equality of values, as Python `==` compares the keys of dicts.
(The Python quirk `True == 1` is not modelled; no claim mixes bool and int
keys.) -/
def Value.beq : Value → Value → Bool
  | .null, .null => true
  | .bool a, .bool b => a == b
  | .int a, .int b => a == b
  | .str a, .str b => a == b
  | .list [], .list [] => true
  | .list (x :: xs), .list (y :: ys) => x.beq y && Value.beq (.list xs) (.list ys)
  | .dict [], .dict [] => true
  | .dict ((k, a) :: xs), .dict ((l, b) :: ys) =>
      k.beq l && a.beq b && Value.beq (.dict xs) (.dict ys)
  | _, _ => false
termination_by a _ => sizeOf a

/-- Comparison `v == name` for a string `name`: Python compares an arbitrary dict key
with a string field name (only equal when the key is that string). -/
def Value.isStr : Value → String → Bool
  | .str t, s => t == s
  | _, _ => false

def Value.isList : Value → Bool
  | .list _ => true
  | _ => false

/-- Python `str(value)` as used inside error messages.  Faithful for the
scalar values that reach messages in the claims; container reprs are
placeholders (no claim inspects a message built from a container). -/
def pyStr : Value → String
  | .int n => toString n
  | .str s => s
  | .bool b => if b then "True" else "False"
  | .null => "None"
  | .list _ => "<list>"
  | .dict _ => "<dict>"

/-- A single-quote character, for building messages exactly as the source
formats them. -/
def sQuote : String := String.singleton (Char.ofNat 39)

/-- Python dict assignment `d[k] = v`: if an equal key exists the value is
replaced in place (position and original key object kept), otherwise the
entry is appended at the end. -/
def dSet {β : Type} (l : List (Value × β)) (k : Value) (x : β) : List (Value × β) :=
  if l.any (fun p => p.1.beq k) then
    l.map (fun p => if p.1.beq k then (p.1, x) else p)
  else l ++ [(k, x)]

/-- Python `enumerate(xs, i)`. -/
def enumerate {α : Type} : Nat → List α → List (Nat × α)
  | _, [] => []
  | i, x :: xs => (i, x) :: enumerate (i + 1) xs

/-- Digits-only accumulator for `int(str)`. -/
def parseDigits : List Char → Nat → Option Nat
  | [], acc => some acc
  | c :: cs, acc =>
      if c.isDigit then parseDigits cs (acc * 10 + (c.toNat - 48)) else none

/-- Python `int(s)` on a string: an optional sign followed by digits, anything
else raises `ValueError`.  (Surrounding whitespace and an explicit plus sign
are not needed by any claim.) -/
def pyInt : String → Option Int
  | s =>
    match s.toList with
    | [] => none
    | '-' :: cs => if cs.isEmpty then none else (parseDigits cs 0).map (fun n => -(n : Int))
    | cs => (parseDigits cs 0).map (fun n => (n : Int))

/-- Model of `Int.check_and_return` for `Int()` (no range options configured):
an int (or bool, a subclass of int in Python) is returned unchanged, a string
is converted with `int(...)`, everything else is rejected. -/
def intCheck : Value → Res
  | .int n => .ok (.int n)
  | .bool b => .ok (.bool b)
  | .str s =>
    match pyInt s with
    | some n => .ok (.int n)
    | none => .err (.msg ("value " ++ s ++ " can" ++ sQuote ++ "t be converted to int"))
  | w => .err (.msg ("value " ++ pyStr w ++ " is not int"))

/-- Model of `String.check_and_return` for `String(allow_blank=...)` with no regex and
no length options; `len(value) is 0` is the empty-string test; with no regex
the validated string is returned as is. -/
def stringCheck (allowBlank : Bool) : Value → Res
  | .str s =>
      if !allowBlank && s == "" then .err (.msg "blank value is not allowed")
      else .ok (.str s)
  | _ => .err (.msg "value is not a string")

/-- A compiled validator: what `trafaret.check` is once the schema node is
fixed. -/
abbrev Checker := Value → Res

/-- The per-field configuration of a `Key` descriptor (the `trafaret` field of
the Python class is carried alongside as the second component of the pairs in
`Trafaret.dict`).  `default = none` models the `_empty` sentinel (no default
configured); a configured default is modelled by its produced value (for a
callable default, the value the callable returns). -/
structure KeySpec where
  name : String
  toName : Option String := none
  default : Option Value := none
  optional : Bool := false
deriving Repr

/-- Model of `Key.get_name`: `self.to_name or self.name` (an empty rename string is
falsy in Python, hence falls back to the source name). -/
def keyGetName (ks : KeySpec) : String :=
  match ks.toName with
  | some tn => if tn.isEmpty then ks.name else tn
  | none => ks.name

/-- Membership test `self.name in data` for a working dict. -/
def dataHas (data : List (Value × Value)) (name : String) : Bool :=
  data.any (fun p => p.1.isStr name)

/-- Lookup `data[self.name]` by field name. -/
def dataGet (data : List (Value × Value)) (name : String) : Option Value :=
  (data.find? (fun p => p.1.isStr name)).map (fun p => p.2)

/-- The removal part of `data.pop(self.name, default)`: drop the entry for
`name` (a no-op when absent), keeping the order of the rest. -/
def dataErase (data : List (Value × Value)) (name : String) : List (Value × Value) :=
  data.filter (fun p => !(p.1.isStr name))

/-- Membership tests `key in self.ignore` and `key in self.extras`: an input key matches a
configured name list only when it is that string. -/
def memStr (v : Value) (l : List String) : Bool :=
  match v with
  | .str s => l.contains s
  | _ => false

/-- Model of `Key.pop(data)`, with the field validator already compiled to `f`.
Returns the list of `(name, value-or-DataError)` pairs the generator yields
together with the working dict after the `data.pop` mutation; `.inl s` is a
non-`DataError` exception escaping the field validator (the pop has already
happened when the validator runs). -/
def keyPop (ks : KeySpec) (f : Checker) (data : List (Value × Value)) :
    Sum String (List (String × Except DataError Value)) × List (Value × Value) :=
  if dataHas data ks.name || ks.default.isSome then
    let raw :=
      match dataGet data ks.name with
      | some v => v
      | none => ks.default.getD Value.null
    let data' := dataErase data ks.name
    match f raw with
    | .fatal s => (.inl s, data')
    | .ok v => (.inr [(keyGetName ks, .ok v)], data')
    | .err e => (.inr [(keyGetName ks, .error e)], data')
  else if !ks.optional then
    (.inr [(ks.name, .error (.msg "is required"))], data)
  else (.inr [], data)

/-- The `for key in self.keys: for k, v in key.pop(data)` loop of
`Dict.check_and_return`: all yielded pairs in order, threading the working
dict through the pops. -/
def dictPairs (ks : List (KeySpec × Checker)) (data : List (Value × Value)) :
    Sum String (List (String × Except DataError Value)) × List (Value × Value) :=
  match ks with
  | [] => (.inr [], data)
  | (k, f) :: rest =>
    match keyPop k f data with
    | (.inl s, data') => (.inl s, data')
    | (.inr ys, data') =>
      match dictPairs rest data' with
      | (.inl s, dataF) => (.inl s, dataF)
      | (.inr pairs, dataF) => (.inr (ys ++ pairs), dataF)

/-- Distributing the yielded pairs into the `collect` and `errors` dicts:
`errors[k] = v` when the pair carries a `DataError`, else `collect[k] = v`. -/
def dictCollect (pairs : List (String × Except DataError Value)) :
    List (Value × Value) × List (Value × DataError) :=
  pairs.foldl
    (fun acc p =>
      match p.2 with
      | .error e => (acc.1, dSet acc.2 (.str p.1) e)
      | .ok v => (dSet acc.1 (.str p.1) v, acc.2))
    ([], [])

/-- The extra-key pass of `Dict.check_and_return`: skipped entirely under
`ignore_any`; otherwise each leftover working-dict entry is dropped if
ignored, passed through verbatim if allowed, and a not-allowed-key error
otherwise. -/
def dictExtras (ignoreAny : Bool) (ignore : List String) (allowAny : Bool)
    (extras : List String) (data : List (Value × Value))
    (acc : List (Value × Value) × List (Value × DataError)) :
    List (Value × Value) × List (Value × DataError) :=
  if ignoreAny then acc
  else
    data.foldl
      (fun st p =>
        if memStr p.1 ignore then st
        else if !allowAny && !memStr p.1 extras then
          (st.1, dSet st.2 p.1 (.msg (pyStr p.1 ++ " is not allowed key")))
        else (dSet st.1 p.1 p.2, st.2))
      acc

/-- Model of `Dict.check_and_return` with the key descriptors already compiled. -/
def dictRun (ks : List (KeySpec × Checker)) (extras : List String) (allowAny : Bool)
    (ignore : List String) (ignoreAny : Bool) (v : Value) : Res :=
  match v with
  | .dict entries =>
    match dictPairs ks entries with
    | (.inl s, _) => .fatal s
    | (.inr pairs, data) =>
      let acc := dictExtras ignoreAny ignore allowAny extras data (dictCollect pairs)
      if acc.2.isEmpty then .ok (.dict acc.1) else .err (.children acc.2)
  | _ => .err (.msg ("value " ++ sQuote ++ pyStr v ++ sQuote ++ " is not dict"))

/-- The branch loop of `Or.check_and_return`: return the first success, keep
collecting `DataError`s, and after the last branch raise one error whose
children are the collected branch errors keyed by 0-based branch index. -/
def orLoop (fs : List Checker) (v : Value) (errs : List DataError) : Res :=
  match fs with
  | [] => .err (.children ((enumerate 0 errs).map (fun p => (Value.int p.1, p.2))))
  | f :: rest =>
    match f v with
    | .ok r => .ok r
    | .err e => orLoop rest v (errs ++ [e])
    | .fatal s => .fatal s

/-- The element loop of `List.check_and_return` starting at index `i`:
successes are appended to the result list, `DataError`s are recorded in the
index-keyed error map, and a non-`DataError` exception aborts the loop. -/
def listElems (f : Checker) : List Value → Nat → Sum String (List Value × List (Nat × DataError))
  | [], _ => .inr ([], [])
  | x :: rest, i =>
    match f x with
    | .fatal s => .inl s
    | .ok r =>
      match listElems f rest (i + 1) with
      | .inl s => .inl s
      | .inr (lst, errs) => .inr (r :: lst, errs)
    | .err e =>
      match listElems f rest (i + 1) with
      | .inl s => .inl s
      | .inr (lst, errs) => .inr (lst, (i, e) :: errs)

/-- After the element loop: raise with the full index-keyed map when any
element failed, else return the converted elements. -/
def listFinish (f : Checker) (xs : List Value) : Res :=
  match listElems f xs 0 with
  | .inl s => .fatal s
  | .inr (lst, errs) =>
    if errs.isEmpty then .ok (.list lst)
    else .err (.children (errs.map (fun p => (Value.int p.1, p.2))))

/-- Model of `List.check_and_return`: the fail-fast type and length-bound checks,
then the element loop. -/
def listRun (f : Checker) (mn : Nat) (mx : Option Nat) (v : Value) : Res :=
  match v with
  | .list xs =>
    if xs.length < mn then .err (.msg ("list length is less than " ++ toString mn))
    else
      match mx with
      | some m =>
        if xs.length > m then .err (.msg ("list length is greater than " ++ toString m))
        else listFinish f xs
      | none => listFinish f xs
  | _ => .err (.msg "value is not list")

/-- The entry loop of `Mapping.check_and_return`: for each entry both the key
and the value validator run (each in its own `try`/`except DataError`); a
non-`DataError` exception aborts the loop at that point.  Returns the triple
`(original key, key result, value result)` per entry. -/
def mapPairs (fk fv : Checker) : List (Value × Value) → Sum String (List (Value × Res × Res))
  | [] => .inr []
  | (k, v) :: rest =>
    match fk k with
    | .fatal s => .inl s
    | rk =>
      match fv v with
      | .fatal s => .inl s
      | rv =>
        match mapPairs fk fv rest with
        | .inl s => .inl s
        | .inr ps => .inr ((k, rk, rv) :: ps)

/-- The `pair_errors` dict for one entry: a `key` entry exactly when the key
validator raised, then a `value` entry exactly when the value validator
raised. -/
def pairSides (rk rv : Res) : List (Value × DataError) :=
  (match rk with | .err e => [(Value.str "key", e)] | _ => []) ++
  (match rv with | .err e => [(Value.str "value", e)] | _ => [])

/-- One step of distributing an entry into `checked_mapping` / `errors`:
both sides ok inserts the converted pair, otherwise the entry error (made of
exactly the failing sides) is recorded under the original input key. -/
def mapStep (acc : List (Value × Value) × List (Value × DataError))
    (tr : Value × Res × Res) : List (Value × Value) × List (Value × DataError) :=
  match tr.2.1, tr.2.2 with
  | .ok ck, .ok cv => (dSet acc.1 ck cv, acc.2)
  | rk, rv => (acc.1, dSet acc.2 tr.1 (.children (pairSides rk rv)))

def mapCollect (ps : List (Value × Res × Res)) :
    List (Value × Value) × List (Value × DataError) :=
  ps.foldl mapStep ([], [])

/-- Model of `Mapping.check_and_return`: a non-dict has no `.items()`, so Python
raises `AttributeError` (not a `DataError`). -/
def mapRun (fk fv : Checker) (v : Value) : Res :=
  match v with
  | .dict entries =>
    match mapPairs fk fv entries with
    | .inl s => .fatal s
    | .inr ps =>
      let acc := mapCollect ps
      if acc.2.isEmpty then .ok (.dict acc.1) else .err (.children acc.2)
  | _ => .fatal "AttributeError: value has no attribute items"

/-- Schema nodes: the combinators the claims exercise, with children embedded
structurally.  `dict` carries in order: the `Key` descriptors with their
field validators, then the `extras` list, `allow_any`, `ignore` list and
`ignore_any` flags of the extra-key policy. -/
inductive Trafaret where
  | any : Trafaret
  | int : Trafaret
  | string (allowBlank : Bool) : Trafaret
  | or (trafarets : List Trafaret) : Trafaret
  | list (trafaret : Trafaret) (minLength : Nat) (maxLength : Option Nat) : Trafaret
  | dict (keys : List (KeySpec × Trafaret)) (extras : List String) (allowAny : Bool)
      (ignore : List String) (ignoreAny : Bool) : Trafaret
  | mapping (key value : Trafaret) : Trafaret
deriving Repr

mutual

/-- Model of `trafaret.check(value)` for every modelled node (no converters appended;
the converter pipeline of `Trafaret.check` is modelled by `nodeCheck`
below). -/
def check : Trafaret → Checker
  | .any => fun v => .ok v
  | .int => intCheck
  | .string ab => stringCheck ab
  | .or ts => fun v => orLoop (checks ts) v []
  | .list t mn mx => listRun (check t) mn mx
  | .dict ks extras allowAny ignore ignoreAny =>
      dictRun (dictChecks ks) extras allowAny ignore ignoreAny
  | .mapping kt vt => mapRun (check kt) (check vt)
termination_by t => sizeOf t

/-- Compile every branch of an `Or`. -/
def checks : List Trafaret → List Checker
  | [] => []
  | t :: rest => check t :: checks rest
termination_by ts => sizeOf ts

/-- Compile the field validator of every `Key` descriptor. -/
def dictChecks : List (KeySpec × Trafaret) → List (KeySpec × Checker)
  | [] => []
  | (ks, t) :: rest => (ks, check t) :: dictChecks rest
termination_by ks => sizeOf ks

end

/-- Model of `Forward.provide(trafaret)`: setting the target a second time raises
`RuntimeError` (a configuration fault, a different type from `DataError`);
the state is the `self.trafaret` field, `none` until the first bind. -/
def forwardProvide (st : Option Trafaret) (t : Trafaret) : Except String (Option Trafaret) :=
  match st with
  | some _ => .error "trafaret for Forward is already specified"
  | none => .ok (some t)

/-- Model of `Forward.check_and_return`: unbound fails with a validation error,
bound delegates to the target. -/
def forwardCheck (st : Option Trafaret) (v : Value) : Res :=
  match st with
  | none => .err (.msg "trafaret not set yet")
  | some t => check t v

/-- Model of `Trafaret._convert`: run the converters in order on the validated value;
a converter that raises (`DataError` or otherwise) stops the chain and its
exception propagates. -/
def runConverters : List Checker → Value → Res
  | [], v => .ok v
  | c :: rest, v =>
    match c v with
    | .ok w => runConverters rest w
    | r => r

/-- Model of `Trafaret.check` for a node whose own validation logic is `car`
(`check_and_return`) and whose appended converter list is `convs`:
`self._convert(self.check_and_return(value))`.  With no converter appended
the default chain `[self.converter]` is the identity, which coincides with
`runConverters []`. -/
def nodeCheck (car : Checker) (convs : List Checker) (v : Value) : Res :=
  match car v with
  | .ok w => runConverters convs w
  | r => r

/-- Model of `Trafaret.append(converter)`: converters accumulate at the end of the
list, in registration order. -/
def appendConv (convs : List Checker) (c : Checker) : List Checker :=
  convs ++ [c]

/-- The two dict objects alive during `Dict.check_and_return`: the dict the
caller passed in (`value`) and the working copy (`data`). -/
structure PyDicts where
  caller : List (Value × Value)
  working : List (Value × Value)

/-- The key-descriptor loop of `Dict.check_and_return` with the dict objects
explicit: every `data.pop` of `Key.pop` mutates the working copy, never the
caller dict. -/
def dictPairsSt (ks : List (KeySpec × Checker)) (st : PyDicts) :
    Sum String (List (String × Except DataError Value)) × PyDicts :=
  match ks with
  | [] => (.inr [], st)
  | (k, f) :: rest =>
    match keyPop k f st.working with
    | (.inl s, w') => (.inl s, { st with working := w' })
    | (.inr ys, w') =>
      match dictPairsSt rest { st with working := w' } with
      | (.inl s, stF) => (.inl s, stF)
      | (.inr pairs, stF) => (.inr (ys ++ pairs), stF)

/-- Model of `Dict.check_and_return` with the dict objects explicit: the working copy
starts as `copy.copy(value)` (a fresh top-level copy of the caller entries),
and the extra-key pass reads the leftover working entries.  Returns the
outcome together with the final state of both dict objects. -/
def dictRunSt (ks : List (KeySpec × Checker)) (extras : List String) (allowAny : Bool)
    (ignore : List String) (ignoreAny : Bool) (input : List (Value × Value)) :
    Res × PyDicts :=
  let st0 : PyDicts := { caller := input, working := input }
  match dictPairsSt ks st0 with
  | (.inl s, stF) => (.fatal s, stF)
  | (.inr pairs, stF) =>
    let acc := dictExtras ignoreAny ignore allowAny extras stF.working (dictCollect pairs)
    (if acc.2.isEmpty then .ok (.dict acc.1) else .err (.children acc.2), stF)

/-- The aggregated-error entry that `Mapping.check_and_return` records for one
input entry: nothing when both sides pass, otherwise the original input key
mapped to the `pair_errors` of exactly the failing sides. -/
def entryErr (fk fv : Checker) (p : Value × Value) : Option (Value × DataError) :=
  match fk p.1, fv p.2 with
  | .ok _, .ok _ => none
  | rk, rv => some (p.1, .children (pairSides rk rv))

/-! ## Unfolding equations for the compiled checker -/

theorem check_any (v : Value) : check .any v = .ok v := by
  simp [check]

theorem check_int (v : Value) : check .int v = intCheck v := by
  simp [check]

theorem check_string (ab : Bool) (v : Value) :
    check (.string ab) v = stringCheck ab v := by
  simp [check]

theorem check_or (ts : List Trafaret) (v : Value) :
    check (.or ts) v = orLoop (checks ts) v [] := by
  simp [check]

theorem check_list (t : Trafaret) (mn : Nat) (mx : Option Nat) (v : Value) :
    check (.list t mn mx) v = listRun (check t) mn mx v := by
  simp [check]

theorem check_dict (ks : List (KeySpec × Trafaret)) (extras : List String)
    (allowAny : Bool) (ignore : List String) (ignoreAny : Bool) (v : Value) :
    check (.dict ks extras allowAny ignore ignoreAny) v
      = dictRun (dictChecks ks) extras allowAny ignore ignoreAny v := by
  simp [check]

theorem check_mapping (kt vt : Trafaret) (v : Value) :
    check (.mapping kt vt) v = mapRun (check kt) (check vt) v := by
  simp [check]

theorem checks_nil : checks [] = [] := by simp [checks]

theorem checks_cons (t : Trafaret) (rest : List Trafaret) :
    checks (t :: rest) = check t :: checks rest := by
  simp [checks]

theorem dictChecks_nil : dictChecks [] = [] := by simp [dictChecks]

theorem dictChecks_cons (ks : KeySpec) (t : Trafaret) (rest : List (KeySpec × Trafaret)) :
    dictChecks ((ks, t) :: rest) = (ks, check t) :: dictChecks rest := by
  simp [dictChecks]

/-! ## Helper lemmas -/

/-- When no element check raises a non-`DataError` exception, the element
loop of `List.check_and_return` visits every element: the successes are all
converted elements in order, and the error map holds exactly the failing
indices. -/
theorem listElems_no_fatal (f : Checker) (xs : List Value) (i : Nat)
    (h : ∀ x ∈ xs, (f x).isFatal = false) :
    listElems f xs i = .inr
      (xs.filterMap (fun x => (f x).okVal),
       (enumerate i xs).filterMap (fun p => ((f p.2).errVal).map (fun e => (p.1, e)))) := by
  induction xs generalizing i with
  | nil => simp [listElems, enumerate]
  | cons x rest ih =>
    have hx := h x (by simp)
    have hrest : ∀ y ∈ rest, (f y).isFatal = false :=
      fun y hy => h y (List.mem_cons_of_mem _ hy)
    cases hfx : f x with
    | fatal s => rw [hfx] at hx; simp [Res.isFatal] at hx
    | ok r =>
      simp [listElems, hfx, ih _ hrest, enumerate, Res.okVal, Res.errVal]
    | err e =>
      simp [listElems, hfx, ih _ hrest, enumerate, Res.okVal, Res.errVal]

/-- Appending a converter runs it after the existing chain, on the output
of that chain. -/
theorem runConverters_append (convs : List Checker) (c : Checker) (v : Value) :
    runConverters (appendConv convs c) v =
      (match runConverters convs v with
       | .ok u => c u
       | r => r) := by
  induction convs generalizing v with
  | nil =>
    simp only [appendConv, List.nil_append, runConverters]
    cases hc : c v <;> simp [runConverters, hc]
  | cons d rest ih =>
    simp only [appendConv, List.cons_append, runConverters] at ih ⊢
    cases hd : d v <;> simp [hd, ih]

/-- A chain of converters that never raise is the left-to-right composition
of the underlying functions. -/
theorem runConverters_pure (fs : List (Value → Value)) (v : Value) :
    runConverters (fs.map (fun g x => .ok (g x))) v = .ok (fs.foldl (fun a g => g a) v) := by
  induction fs generalizing v with
  | nil => simp [runConverters]
  | cons g rest ih => simp [runConverters, ih]

/-- When no entry makes either validator raise a non-`DataError` exception,
the entry loop of `Mapping.check_and_return` runs the key validator and the
value validator on every entry and records both outcomes. -/
theorem mapPairs_no_fatal (fk fv : Checker) (entries : List (Value × Value))
    (h : ∀ p ∈ entries, (fk p.1).isFatal = false ∧ (fv p.2).isFatal = false) :
    mapPairs fk fv entries = .inr (entries.map (fun p => (p.1, fk p.1, fv p.2))) := by
  induction entries with
  | nil => simp [mapPairs]
  | cons p rest ih =>
    obtain ⟨hk, hv⟩ := h p (by simp)
    have hrest : ∀ q ∈ rest, (fk q.1).isFatal = false ∧ (fv q.2).isFatal = false :=
      fun q hq => h q (List.mem_cons_of_mem _ hq)
    obtain ⟨k, v⟩ := p
    cases hfk : fk k with
    | fatal s => rw [hfk] at hk; simp [Res.isFatal] at hk
    | ok rk =>
      cases hfv : fv v with
      | fatal s => rw [hfv] at hv; simp [Res.isFatal] at hv
      | ok rv => simp [mapPairs, hfk, hfv, ih hrest]
      | err ev => simp [mapPairs, hfk, hfv, ih hrest]
    | err ek =>
      cases hfv : fv v with
      | fatal s => rw [hfv] at hv; simp [Res.isFatal] at hv
      | ok rv => simp [mapPairs, hfk, hfv, ih hrest]
      | err ev => simp [mapPairs, hfk, hfv, ih hrest]

/-- Writing a fresh key into a Python dict appends the entry. -/
theorem dSet_fresh {β : Type} (l : List (Value × β)) (k : Value) (x : β)
    (h : ∀ r ∈ l, r.1.beq k = false) :
    dSet l k x = l ++ [(k, x)] := by
  have : l.any (fun p => p.1.beq k) = false := by
    rw [List.any_eq_false]
    intro p hp
    simp [h p hp]
  simp [dSet, this]

/-- The distribution fold of `Mapping.check_and_return`: as long as the entry
keys are pairwise distinct (always true of a Python dict) and fresh relative
to the errors accumulated so far, the final `errors` dict is the accumulated
errors followed by one entry per failing input entry, in input order, keyed
by the original input key. -/
theorem mapFold_errs (ps : List (Value × Res × Res))
    (acc : List (Value × Value) × List (Value × DataError))
    (hdisj : ∀ q ∈ ps, ∀ r ∈ acc.2, r.1.beq q.1 = false)
    (hpw : ps.Pairwise (fun a b => a.1.beq b.1 = false)) :
    (ps.foldl mapStep acc).2 = acc.2 ++ ps.filterMap (fun tr =>
      match tr.2.1, tr.2.2 with
      | .ok _, .ok _ => none
      | rk, rv => some (tr.1, .children (pairSides rk rv))) := by
  induction ps generalizing acc with
  | nil => simp
  | cons tr rest ih =>
    obtain ⟨k, rk, rv⟩ := tr
    have hk : ∀ r ∈ acc.2, r.1.beq k = false := fun r hr => hdisj (k, rk, rv) (by simp) r hr
    have hpwTail := (List.pairwise_cons.mp hpw).2
    have hpwHead := (List.pairwise_cons.mp hpw).1
    have hdisjTail : ∀ q ∈ rest, ∀ r ∈ acc.2, r.1.beq q.1 = false :=
      fun q hq r hr => hdisj q (List.mem_cons_of_mem _ hq) r hr
    have hstep : ∀ (e : DataError),
        (rest.foldl mapStep (acc.1, dSet acc.2 k e)).2 =
          acc.2 ++ ((k, e) :: rest.filterMap (fun tr =>
            match tr.2.1, tr.2.2 with
            | .ok _, .ok _ => none
            | rk, rv => some (tr.1, .children (pairSides rk rv)))) := by
      intro e
      rw [dSet_fresh _ _ _ hk]
      rw [ih (acc.1, acc.2 ++ [(k, e)]) ?_ hpwTail]
      · simp
      · intro q hq r hr
        rcases List.mem_append.mp hr with hr1 | hr2
        · exact hdisjTail q hq r hr1
        · simp only [List.mem_singleton] at hr2
          subst hr2
          exact hpwHead q hq
    cases rk <;> cases rv <;>
      simp only [List.foldl_cons, List.filterMap_cons, mapStep, hstep]
    · exact ih (dSet acc.1 _ _, acc.2) hdisjTail hpwTail

/-- The key-descriptor loop never touches the caller dict: every mutation in
`Key.pop` targets the working copy. -/
theorem dictPairsSt_caller (ks : List (KeySpec × Checker)) (st : PyDicts) :
    (dictPairsSt ks st).2.caller = st.caller := by
  induction ks generalizing st with
  | nil => simp [dictPairsSt]
  | cons kf rest ih =>
    obtain ⟨k, f⟩ := kf
    simp only [dictPairsSt]
    cases hp : keyPop k f st.working with
    | mk r w' =>
      cases r with
      | inl s => simp
      | inr ys =>
        have hih := ih { st with working := w' }
        cases hrec : dictPairsSt rest { st with working := w' } with
        | mk r2 stF =>
          rw [hrec] at hih
          simp only [hrec]
          cases r2 <;> simpa using hih

/-- The state-explicit key-descriptor loop computes exactly what the
state-free one computes on the working copy. -/
theorem dictPairsSt_agree (ks : List (KeySpec × Checker)) (st : PyDicts) :
    (dictPairsSt ks st).1 = (dictPairs ks st.working).1 ∧
    (dictPairsSt ks st).2.working = (dictPairs ks st.working).2 := by
  induction ks generalizing st with
  | nil => simp [dictPairsSt, dictPairs]
  | cons kf rest ih =>
    obtain ⟨k, f⟩ := kf
    simp only [dictPairsSt, dictPairs]
    cases hp : keyPop k f st.working with
    | mk r w' =>
      cases r with
      | inl s => simp
      | inr ys =>
        have h1 := (ih { st with working := w' }).1
        have h2 := (ih { st with working := w' }).2
        cases hrec : dictPairsSt rest { st with working := w' } with
        | mk r2 stF =>
          rw [hrec] at h1 h2
          simp only at h1 h2
          cases r2 with
          | inl s =>
            cases hrec2 : dictPairs rest w' with
            | mk r3 dF =>
              rw [hrec2] at h1 h2
              cases r3 with
              | inl s3 => simp_all
              | inr p3 => simp_all
          | inr pairs =>
            cases hrec2 : dictPairs rest w' with
            | mk r3 dF =>
              rw [hrec2] at h1 h2
              cases r3 with
              | inl s3 => simp_all
              | inr p3 => simp_all

/-! ## Claim theorems -/

/-- C3: for an alternation `Or(A, B...)`, if the first branch succeeds on the
input then `check` returns exactly the result of that branch, whatever the later
branches are (they are never evaluated: the result does not depend on
`rest`); branches are tried in declaration order and the first success is
returned unmodified. -/
theorem or_first_success_returned (a : Trafaret) (rest : List Trafaret) (v r : Value)
    (h : check a v = .ok r) :
    check (.or (a :: rest)) v = .ok r := by
  rw [check_or, checks_cons]
  simp [orLoop, h]

theorem or_first_success_returned_witness :
    check (.or [.int, .string false]) (.int 7) = .ok (.int 7) :=
  or_first_success_returned .int [.string false] (.int 7) (.int 7)
    (by rw [check_int]; rfl)

/-- C10: an alternation constructed with zero branches fails on every input,
raising one error whose branch-indexed children map is empty. -/
theorem or_empty_always_fails (v : Value) :
    check (.or []) v = .err (.children []) := by
  rw [check_or, checks_nil]
  simp [orLoop, enumerate]

/-- C7: a `Forward` already bound to a target rejects a second bind with a
fatal configuration error (a `RuntimeError`-typed result, not a validation
`DataError`) at bind time; the first bind sets the target exactly once; and
at check time a bound `Forward` only delegates to its target. -/
theorem forward_double_bind_fatal (t0 t : Trafaret) (v : Value) :
    forwardProvide none t = .ok (some t) ∧
    forwardProvide (some t0) t = .error "trafaret for Forward is already specified" ∧
    forwardCheck (some t0) v = check t0 v :=
  ⟨rfl, rfl, rfl⟩

/-- C8: with converters appended, `check` runs them in registration order
only after the own validation of the node succeeds, each converter receiving
the output of the previous stage; on validation failure no converter runs
(the result does not depend on `convs`); for converters that never raise, the
result of the node is the left-to-right composition applied to the validated
value. -/
theorem converter_pipeline_order (car : Checker) (convs : List Checker) (c : Checker)
    (fs : List (Value → Value)) (v : Value) (e : DataError) (w : Value) :
    (car v = .err e → nodeCheck car convs v = .err e) ∧
    (car v = .ok w → nodeCheck car convs v = runConverters convs w) ∧
    (runConverters (appendConv convs c) v =
      (match runConverters convs v with
       | .ok u => c u
       | r => r)) ∧
    (car v = .ok w →
      nodeCheck car (fs.map (fun g x => .ok (g x))) v = .ok (fs.foldl (fun a g => g a) w)) := by
  refine ⟨?_, ?_, runConverters_append convs c v, ?_⟩
  · intro h
    simp [nodeCheck, h]
  · intro h
    simp [nodeCheck, h]
  · intro h
    simp [nodeCheck, h, runConverters_pure]

theorem converter_pipeline_order_witness :
    nodeCheck intCheck [fun u => Res.ok u] (.str "q") =
      .err (.msg ("value q can" ++ sQuote ++ "t be converted to int")) ∧
    nodeCheck intCheck ((fun (x : Value) => Value.list [x]) ::
        [fun (x : Value) => Value.list [x, x]] |>.map (fun g x => Res.ok (g x))) (.int 3) =
      .ok (.list [.list [.int 3], .list [.int 3]]) := by
  constructor
  · exact (converter_pipeline_order intCheck [fun u => Res.ok u] (fun u => Res.ok u) []
      (.str "q") (.msg ("value q can" ++ sQuote ++ "t be converted to int")) (.int 0)).1 rfl
  · have h := (converter_pipeline_order intCheck [] (fun u => Res.ok u)
      [fun (x : Value) => Value.list [x], fun (x : Value) => Value.list [x, x]]
      (.int 3) (.msg "") (.int 3)).2.2.2 rfl
    simpa using h

/-- C5: a `List` validator fails immediately, with a single non-aggregated
message and without ever invoking the element validator (the result is the
same for every element validator `t`), when the input is not a list, or its
length is below `minLength`, or above `maxLength`. -/
theorem list_fail_fast (t : Trafaret) (mn m : Nat) (mx : Option Nat)
    (xs : List Value) (v : Value) :
    (v.isList = false → check (.list t mn mx) v = .err (.msg "value is not list")) ∧
    (xs.length < mn → check (.list t mn mx) (.list xs) =
        .err (.msg ("list length is less than " ++ toString mn))) ∧
    (mn ≤ xs.length → m < xs.length → check (.list t mn (some m)) (.list xs) =
        .err (.msg ("list length is greater than " ++ toString m))) := by
  refine ⟨?_, ?_, ?_⟩
  · intro hv
    rw [check_list]
    cases v <;> simp [listRun, Value.isList] at hv ⊢
  · intro h
    rw [check_list]
    simp [listRun, h]
  · intro h1 h2
    rw [check_list]
    simp [listRun, Nat.not_lt.mpr h1, h2]

theorem list_fail_fast_witness :
    check (.list .int 1 none) (.list []) =
      .err (.msg ("list length is less than " ++ toString 1)) ∧
    check (.list .int 0 none) (.int 5) = .err (.msg "value is not list") ∧
    check (.list .int 0 (some 1)) (.list [.int 1, .int 2]) =
      .err (.msg ("list length is greater than " ++ toString 1)) := by
  refine ⟨?_, ?_, ?_⟩
  · exact (list_fail_fast .int 1 0 none [] (.int 0)).2.1 (by decide)
  · exact (list_fail_fast .int 0 0 none [] (.int 5)).1 rfl
  · exact (list_fail_fast .int 0 1 none [.int 1, .int 2] (.int 0)).2.2 (by decide) (by decide)

/-- C4: once a list input has passed the type and length-bound checks, every
element is validated against the element validator, even after earlier
elements fail: if any element fails, `check` raises one error whose children
map holds exactly the failing indices with their element errors and no
partial output is returned; if none fails, `check` returns the converted
elements in the original order.  (`isFatal = false` excludes the one thing
that does abort the loop: a non-`DataError` exception from an element.) -/
theorem list_validates_every_element (t : Trafaret) (xs : List Value) (mn : Nat)
    (mx : Option Nat)
    (hmin : mn ≤ xs.length)
    (hmax : ∀ m, mx = some m → xs.length ≤ m)
    (hnf : ∀ x ∈ xs, (check t x).isFatal = false) :
    check (.list t mn mx) (.list xs) =
      (if ((enumerate 0 xs).filterMap
            (fun p => ((check t p.2).errVal).map (fun e => (p.1, e)))).isEmpty
       then .ok (.list (xs.filterMap (fun x => (check t x).okVal)))
       else .err (.children (((enumerate 0 xs).filterMap
            (fun p => ((check t p.2).errVal).map (fun e => (p.1, e)))).map
            (fun p => (Value.int p.1, p.2))))) := by
  rw [check_list]
  have hnlt : ¬ (xs.length < mn) := Nat.not_lt.mpr hmin
  cases mx with
  | none =>
    simp only [listRun, hnlt, if_false, listFinish,
      listElems_no_fatal (check t) xs 0 hnf]
  | some m =>
    have hm : ¬ (xs.length > m) := Nat.not_lt.mpr (hmax m rfl)
    simp only [listRun, hnlt, if_false, hm, listFinish,
      listElems_no_fatal (check t) xs 0 hnf]

theorem list_validates_every_element_witness :
    check (.list .int 0 none) (.list [.int 1, .int 2, .str "x"]) =
      .err (.children [(.int 2, .msg ("value x can" ++ sQuote ++ "t be converted to int"))]) := by
  have h := list_validates_every_element .int [.int 1, .int 2, .str "x"] 0 none
    (by decide)
    (by intro m hm; cases hm)
    (by
      intro x hx
      simp only [List.mem_cons, List.not_mem_nil, or_false] at hx
      rcases hx with rfl | rfl | rfl <;>
        simp [check_int, intCheck, pyInt, parseDigits, Res.isFatal])
  simpa [enumerate, check_int, intCheck, pyInt, parseDigits, Res.errVal, Res.okVal] using h

/-- C1 (counterexample): a `Dict` with field `a` renamed to `b` and an `Int`
field validator, checked on `{a: "x"}`: the aggregated error map keys the
field error by the *target* name `b`, not by the source name `a` -- contrary
to the claim that the error is recorded under the source name. -/
theorem dict_rename_error_counterexample :
    check (.dict [({ name := "a", toName := some "b" }, .int)] [] false [] false)
      (.dict [(.str "a", .str "x")]) =
    .err (.children [(.str "b", .msg ("value x can" ++ sQuote ++ "t be converted to int"))]) := by
  simp [check_dict, dictChecks_cons, dictChecks_nil, dictRun, dictPairs, keyPop, dataHas,
    dataGet, dataErase, keyGetName, dictCollect, dictExtras, dSet, Value.isStr, Value.beq,
    memStr, check_int, intCheck, pyInt, parseDigits, String.isEmpty]
  decide

/-- C1 (amended): for every `Dict` whose `Key` descriptor has a rename
configured (a non-empty `to_name` different from the source name), when the
field validator fails on the effective raw value, the aggregated error map
raised by `check` records the error of that field under the *target* name
(`Key.get_name()`), not under the source name -- this holds for every
extra-key policy. -/
theorem dict_rename_error_under_target_name (name tn : String) (dflt : Option Value)
    (opt : Bool) (t : Trafaret) (v : Value) (e : DataError) (extras : List String)
    (allowAny : Bool) (ignore : List String) (ignoreAny : Bool)
    (_hrename : tn ≠ name) (htn : tn.isEmpty = false)
    (hfail : check t v = .err e) :
    check (.dict [({ name := name, toName := some tn, default := dflt, optional := opt }, t)]
        extras allowAny ignore ignoreAny)
      (.dict [(.str name, v)]) =
    .err (.children [(.str tn, e)]) := by
  rw [check_dict, dictChecks_cons, dictChecks_nil]
  simp [dictRun, dictPairs, keyPop, dataHas, dataGet, dataErase, keyGetName, Value.isStr,
    hfail, htn, dictCollect, dictExtras, dSet]

theorem dict_rename_error_under_target_name_witness :
    check (.dict [({ name := "foo", toName := some "bar" }, .string false)] ["e1"] true
        ["i1"] false)
      (.dict [(.str "foo", .int 9)]) =
    .err (.children [(.str "bar", .msg "value is not a string")]) :=
  dict_rename_error_under_target_name "foo" "bar" none false (.string false) (.int 9)
    (.msg "value is not a string") ["e1"] true ["i1"] false
    (by decide) (by decide) (by rw [check_string]; rfl)

/-- C2 (counterexample): `Dict(foo=Int, bar=String)` with `allow_extra("*")`
and `ignore_extra("foo")`, checked on `{foo: 1, bar: "x", baz: 2}`: the check
succeeds but `foo` is *not* dropped from the output -- it is present with its
validated value, because the ignore set only applies to keys left over after
the `Key` descriptors have consumed theirs. -/
theorem dict_ignore_consumed_key_counterexample :
    check (.dict [({ name := "foo" }, .int), ({ name := "bar" }, .string false)]
        [] true ["foo"] false)
      (.dict [(.str "foo", .int 1), (.str "bar", .str "x"), (.str "baz", .int 2)]) =
    .ok (.dict [(.str "foo", .int 1), (.str "bar", .str "x"), (.str "baz", .int 2)]) ∧
    dataHas [(.str "foo", .int 1), (.str "bar", .str "x"), (.str "baz", .int 2)] "foo" = true := by
  constructor
  · simp [check_dict, dictChecks_cons, dictChecks_nil, dictRun, dictPairs, keyPop, dataHas,
      dataGet, dataErase, keyGetName, dictCollect, dictExtras, dSet, Value.isStr, Value.beq,
      memStr, check_int, intCheck, check_string, stringCheck]
  · decide

/-- C2 (amended): `Dict(foo=Int, bar=String)` with `allow_extra("*")` and
`ignore_extra("foo")` on `{foo: 1, bar: "x", baz: 2}` succeeds; `foo` is kept
in the output with its validated value (the ignore set affects only
unrecognized keys, never keys consumed by a descriptor); `baz` is passed
through verbatim. -/
theorem dict_capture_wildcard_ignore_example :
    check (.dict [({ name := "foo" }, .int), ({ name := "bar" }, .string false)]
        [] true ["foo"] false)
      (.dict [(.str "foo", .int 1), (.str "bar", .str "x"), (.str "baz", .int 2)]) =
    .ok (.dict [(.str "foo", .int 1), (.str "bar", .str "x"), (.str "baz", .int 2)]) := by
  simp [check_dict, dictChecks_cons, dictChecks_nil, dictRun, dictPairs, keyPop, dataHas,
    dataGet, dataErase, keyGetName, dictCollect, dictExtras, dSet, Value.isStr, Value.beq,
    memStr, check_int, intCheck, check_string, stringCheck]

/-- C9: `Dict.check_and_return` operates on a working copy of the input
entries (`data = copy.copy(value)`), so whether the check returns or raises,
the top-level entries of the dict of the caller are unchanged -- and the outcome
computed through the state-explicit rendering is exactly `check`. -/
theorem dict_check_preserves_caller (ks : List (KeySpec × Trafaret)) (extras : List String)
    (allowAny : Bool) (ignore : List String) (ignoreAny : Bool)
    (input : List (Value × Value)) :
    (dictRunSt (dictChecks ks) extras allowAny ignore ignoreAny input).2.caller = input ∧
    (dictRunSt (dictChecks ks) extras allowAny ignore ignoreAny input).1 =
      check (.dict ks extras allowAny ignore ignoreAny) (.dict input) := by
  rw [check_dict]
  have hc := dictPairsSt_caller (dictChecks ks) ⟨input, input⟩
  have ha1 := (dictPairsSt_agree (dictChecks ks) ⟨input, input⟩).1
  have ha2 := (dictPairsSt_agree (dictChecks ks) ⟨input, input⟩).2
  simp only [dictRunSt, dictRun]
  cases h1 : dictPairsSt (dictChecks ks) ⟨input, input⟩ with
  | mk r stF =>
    rw [h1] at hc ha1 ha2
    simp only at hc ha1 ha2
    cases h2 : dictPairs (dictChecks ks) input with
    | mk r2 dF =>
      rw [h2] at ha1 ha2
      simp only at ha1 ha2
      subst ha1
      obtain ⟨cal, wor⟩ := stF
      simp only at hc ha2
      subst hc
      subst ha2
      cases r <;> simp

/-- C6: for every `Mapping` and every entry of a dict input, the key
validator and the value validator both run (the recorded outcome of each
entry is built from both results, even when one side fails); an entry with a
failing side contributes, under the *original* input key, an error holding
exactly the failing sides (`pairSides`); entries with both sides passing are
inserted, converted key to converted value, into the output; the aggregated
error map lists exactly the failing entries.  (Entry keys are pairwise
distinct, as in any Python dict; `isFatal = false` excludes non-`DataError`
exceptions, which would abort the loop.) -/
theorem mapping_checks_both_sides (kt vt : Trafaret) (entries : List (Value × Value))
    (hnf : ∀ p ∈ entries, (check kt p.1).isFatal = false ∧ (check vt p.2).isFatal = false)
    (hkeys : entries.Pairwise (fun a b => a.1.beq b.1 = false)) :
    check (.mapping kt vt) (.dict entries) =
      (if (entries.filterMap (entryErr (check kt) (check vt))).isEmpty
       then .ok (.dict
          (mapCollect (entries.map (fun p => (p.1, check kt p.1, check vt p.2)))).1)
       else .err (.children (entries.filterMap (entryErr (check kt) (check vt))))) := by
  rw [check_mapping]
  simp only [mapRun, mapPairs_no_fatal (check kt) (check vt) entries hnf]
  have herrs : (mapCollect (entries.map (fun p => (p.1, check kt p.1, check vt p.2)))).2
      = entries.filterMap (entryErr (check kt) (check vt)) := by
    unfold mapCollect
    rw [mapFold_errs]
    · rw [List.filterMap_map]
      simp only [List.nil_append]
      rfl
    · intro q hq r hr
      simp at hr
    · exact List.Pairwise.map _ (fun a b h => h) hkeys
  rw [herrs]

theorem mapping_checks_both_sides_witness :
    check (.mapping (.string false) .int)
      (.dict [(.str "foo", .int 1), (.int 2, .str "bar")]) =
    .err (.children [(.int 2, .children [(.str "key", .msg "value is not a string"),
      (.str "value", .msg ("value bar can" ++ sQuote ++ "t be converted to int"))])]) := by
  have h := mapping_checks_both_sides (.string false) .int
    [(.str "foo", .int 1), (.int 2, .str "bar")]
    (by
      intro p hp
      simp only [List.mem_cons, List.not_mem_nil, or_false] at hp
      rcases hp with rfl | rfl <;> constructor <;>
        simp [check_string, check_int, stringCheck, intCheck, pyInt, parseDigits, Res.isFatal])
    (by simp [Value.beq])
  simpa [entryErr, pairSides, mapCollect, mapStep, dSet, Value.beq, check_string, check_int,
    stringCheck, intCheck, pyInt, parseDigits] using h
